import Mathlib

/-!
Shallow embedding of `load_sample_data.py`, the data-seeding orchestration
script of this repository.  Pure string manipulation is translated directly;
each phase that shells out to an external service is modelled as a function
from the phase's inputs (and, where relevant, an abstract state of the
external service) to the state it leaves behind and/or the trace of calls it
issues.  External failures are surfaced as `Except`/`Bool` results.
-/

namespace LoadSampleData

/-- The type `MediaType = Literal["image", "audio"]` from the source. -/
inductive MediaType where
  | image
  | audio
deriving DecidableEq, Repr

/-- The string value of a media type. -/
def MediaType.name : MediaType → String
  | .image => "image"
  | .audio => "audio"

/-- The constant `MEDIA_TYPES = ["image", "audio"]` from the source. -/
def MEDIA_TYPES : List MediaType := [.image, .audio]

/-- The constant `CACHE_SERVICE_NAME` (default value `"cache"`). -/
def CACHE_SERVICE_NAME : String := "cache"

/-! ## Models: `Provider` dataclass -/

/-- The `Provider` dataclass. -/
structure Provider where
  identifier : String
  name : String
  url : String
  media_type : String
  filter_content : Bool := false
deriving DecidableEq, Repr

/-- One row of the `content_provider` table, with the columns named in the
`INSERT` statement of `load_content_providers`:
`(created_on,provider_identifier,provider_name,domain_name,media_type,filter_content)`. -/
structure ProviderRow where
  created_on : String
  provider_identifier : String
  provider_name : String
  domain_name : String
  media_type : String
  filter_content : Bool
deriving DecidableEq, Repr

/-- The row inserted for a provider, following `Provider.sql_value`:
`(now(), '<identifier>', '<name>', '<url>', '<media_type>', <filter_content>)`. -/
def Provider.sql_value (p : Provider) : ProviderRow :=
  ⟨"now()", p.identifier, p.name, p.url, p.media_type, p.filter_content⟩

/-! ## Python string helpers used by the script -/

/-- Python's `str.lstrip(chars)`: removes *characters belonging to the set
`chars`* from the left of the string (not a prefix removal). -/
def lstrip (s : String) (chars : String) : String :=
  ⟨s.data.dropWhile (fun c => chars.data.contains c)⟩

/-- Python's `needle in haystack` substring test. -/
def containsSubstring (haystack needle : String) : Bool :=
  decide (needle.data <:+: haystack.data)

/-! ## `create_users` -/

/-- One Django auth user, as created by the shell script embedded in
`create_users`. -/
structure User where
  username : String
  password : String
  superuser : Bool
deriving DecidableEq, Repr

/-- One iteration of the loop in the `create_users` shell script: if a user
with the username exists, skip; otherwise create the user with password
`"deploy"`, as a superuser exactly when the username is `"deploy"`. -/
def createUserStep (st : List User) (username : String) : List User :=
  if st.any (fun u => u.username == username) then st
  else st ++ [⟨username, "deploy", username == "deploy"⟩]

/-- The function `create_users(names)`: the embedded Django shell loop, acting
on the stored list of users. -/
def create_users (names : List String) (st : List User) : List User :=
  names.foldl createUserStep st

/-! ## `backup_table` -/

/-- A `DockerException` raised by `compose_exec`, carrying the captured
standard error of the failed command. -/
structure DockerErr where
  stderr : String
deriving DecidableEq, Repr

/-- The error text matched by `backup_table`:
`f'relation "{media_type}_template" already exists'`. -/
def relationExistsMsg (media_type : MediaType) : String :=
  "relation \"" ++ media_type.name ++ "_template\" already exists"

/-- The function `backup_table(media_type)`, as a function of the outcome of the
`compose_exec` call running the `CREATE TABLE ... _template` script: an error
whose stderr contains the `relation "..._template" already exists` text is
swallowed, any other error is re-raised. -/
def backup_table (media_type : MediaType) (execResult : Except DockerErr Unit) :
    Except DockerErr Unit :=
  match execResult with
  | .ok () => .ok ()
  | .error exc =>
      if containsSubstring exc.stderr (relationExistsMsg media_type) then .ok ()
      else .error exc

/-- The database's response to the `CREATE TABLE <type>_template ...` script:
if the template table already exists the batch fails with the standard
`relation "..." already exists` error (this models the external SQL engine,
whose message text `backup_table` matches on); otherwise it succeeds and the
template table now exists. Returns (template-exists state, exec outcome). -/
def dbCreateTemplate (media_type : MediaType) (templateExists : Bool) :
    Bool × Except DockerErr Unit :=
  if templateExists then
    (true, .error ⟨"ERROR:  " ++ relationExistsMsg media_type⟩)
  else (true, .ok ())

/-- One run of the backup phase for a media type against the database state:
execute the create-template script and pass its outcome through
`backup_table`'s handler. -/
def backupPhase (media_type : MediaType) (templateExists : Bool) :
    Bool × Except DockerErr Unit :=
  let step := dbCreateTemplate media_type templateExists
  (step.fst, backup_table media_type step.snd)

/-! ## `load_content_providers` -/

/-- The function `load_content_providers(providers)` acting on the `content_provider`
table: the batch deletes every row whose `provider_identifier` is among the
given providers' identifiers, then inserts one fresh row per provider (in
`Provider.sql_value` form). -/
def load_content_providers (providers : List Provider) (table : List ProviderRow) :
    List ProviderRow :=
  let identifiers := providers.map (fun p => p.identifier)
  table.filter (fun r => !(identifiers.contains r.provider_identifier))
    ++ providers.map Provider.sql_value

/-! ## `get_actual_providers` and the provider phase of `__main__` -/

/-- Adding one element to a Python `set`, modelled as an insertion-ordered
duplicate-free list. -/
def insertSet (acc : List String) (p : String) : List String :=
  if acc.contains p then acc else acc ++ [p]

/-- The function `get_actual_providers()`: collect the values of the `provider` column of
the two sample CSV files (image first, then audio) into a set, and list the
result.  The argument gives, per media type, the `provider` column of
`./sample_data/sample_<type>.csv`. -/
def get_actual_providers (sampleProviders : MediaType → List String) : List String :=
  ((sampleProviders .image) ++ (sampleProviders .audio)).foldl insertSet []

/-- The list comprehension `[providers[provider] for provider in actual_providers]`
from `__main__`: look each discovered identifier up in the static catalog
(a Python dict, modelled as an association list), left to right; the first
missing key raises `KeyError`, i.e. yields `none`, before any list is
produced. -/
def buildProviderList (catalog : List (String × Provider)) :
    List String → Option (List Provider)
  | [] => some []
  | p :: rest =>
      match catalog.lookup p with
      | none => none
      | some pr => (buildProviderList catalog rest).map (fun l => pr :: l)

/-- The provider-loading step of `__main__`: build the provider list from the
catalog and, only if that succeeds, run `load_content_providers` on the
table.  Returns the resulting table and whether the step completed (`false`
means a `KeyError` escaped before `load_content_providers` was invoked). -/
def providerLoadStep (catalog : List (String × Provider)) (actual : List String)
    (table : List ProviderRow) : List ProviderRow × Bool :=
  match buildProviderList catalog actual with
  | none => (table, false)
  | some ps => (load_content_providers ps table, true)

/-! ## `load_sample_data` -/

/-- Python's `str.strip()`: remove leading and trailing whitespace. -/
def pyStrip (s : String) : String :=
  ⟨((s.data.dropWhile Char.isWhitespace).reverse.dropWhile Char.isWhitespace).reverse⟩

/-- Splitting a comma-separated list of characters into the groups between
commas. -/
def splitCommaChars : List Char → List (List Char)
  | [] => [[]]
  | c :: rest =>
      match splitCommaChars rest with
      | [] => [[]]
      | g :: gs => if c = ',' then [] :: g :: gs else (c :: g) :: gs

/-- Splitting a string on commas. -/
def splitComma (s : String) : List String :=
  (splitCommaChars s.data).map (fun g => ⟨g⟩)

/-- The column list of the `\copy` command built by `load_sample_data`: the
first line of the sample CSV file, stripped of surrounding whitespace
(`sample_file.readline().strip()`), as parsed by the SQL client into
comma-separated column names. -/
def copyColumns (fileLines : List String) : List String :=
  splitComma (pyStrip (fileLines.headD ""))

/-- The database's execution of `\copy <dest> (<columns>) from <file> ...`
under `ON_ERROR_STOP=1` (this models the external SQL engine): if any
requested column is not a column of the destination table the batch fails
and no row is committed; otherwise each CSV record is inserted with its
fields bound to the requested columns in order.  Rows are association lists
from column name to field value; returns (new table, success). -/
def copyExec (destCols : List String) (reqCols : List String)
    (rows : List (List String)) (table : List (List (String × String))) :
    List (List (String × String)) × Bool :=
  if reqCols.all (fun c => destCols.contains c) then
    (table ++ rows.map (fun r => reqCols.zip r), true)
  else (table, false)

/-- The function `load_sample_data(media_type)`, restricted to its bulk-load step: read
the header line of the sample CSV and `\copy` the file's records into the
`<type>_view` table using exactly that header as the column list. -/
def load_sample_data (_media_type : MediaType) (fileLines : List String)
    (destCols : List String) (rows : List (List String))
    (table : List (List (String × String))) :
    List (List (String × String)) × Bool :=
  copyExec destCols (copyColumns fileLines) rows table

/-! ## `ingest` -/

/-- One `run_just` invocation recorded in the trace of `ingest`: the recipe
name, its argument list, and whether the invocation succeeded. -/
structure JustEvent where
  recipe : String
  argv : List String
  ok : Bool
deriving DecidableEq, Repr

/-- Outcome of one attempt of the retryable ingest-and-wait step: the
`ingest-upstream` call fails, or it succeeds and `wait-for-index` fails, or
both succeed. -/
inductive AttemptOutcome where
  | upstreamFail
  | waitFail
  | ok
deriving DecidableEq, Repr

/-- The `run_just` events issued by one attempt of the ingest-and-wait step
(`ingest-upstream` with `[media_type, suffix]`, then `wait-for-index` with
`[f"{media_type}-{suffix}"]`), under the given outcome. -/
def attemptEvents (media_type : MediaType) (suffix : String) :
    AttemptOutcome → List JustEvent
  | .upstreamFail => [⟨"ingest-upstream", [media_type.name, suffix], false⟩]
  | .waitFail =>
      [⟨"ingest-upstream", [media_type.name, suffix], true⟩,
       ⟨"wait-for-index", [media_type.name ++ "-" ++ suffix], false⟩]
  | .ok =>
      [⟨"ingest-upstream", [media_type.name, suffix], true⟩,
       ⟨"wait-for-index", [media_type.name ++ "-" ++ suffix], true⟩]

/-- The retry budget `retries = 2 if media_type == "image" else 0` from `ingest`. -/
def retriesFor (media_type : MediaType) : Nat :=
  if media_type = .image then 2 else 0

/-- The `while True` retry loop of `ingest`.  `oracle n` gives the outcome of
attempt number `n` (0-based); `attempt` is the current attempt number and
`retries` the remaining retry budget.  On a failed attempt with no retries
left the loop re-raises (returns `false`); otherwise it decrements the
budget and re-attempts.  Returns the trace of events and whether the loop
exited by `break` (success). -/
def ingestLoop (media_type : MediaType) (suffix : String)
    (oracle : Nat → AttemptOutcome) (attempt retries : Nat) :
    List JustEvent × Bool :=
  let ev := attemptEvents media_type suffix (oracle attempt)
  match oracle attempt with
  | .ok => (ev, true)
  | _ =>
      match retries with
      | 0 => (ev, false)
      | r + 1 =>
          let rest := ingestLoop media_type suffix oracle (attempt + 1) r
          (ev ++ rest.fst, rest.snd)

/-- The JSON status parsed from `just stat`: whether a prior index exists and
its `alt_names` value (the prior index's full name). -/
structure IndexStat where
  indexExists : Bool
  alt_names : String
deriving DecidableEq, Repr

/-- The function `ingest(media_type)` as a trace of `run_just` invocations: load test
data, query the index status, run the retry loop around ingest-and-wait
with the media type's retry budget, and on success promote the new index
(`promote` with `[media_type, suffix, media_type]`, then `wait-for-index`
with `[media_type]`) and, if the status reported a prior index, delete it
by `data["alt_names"].lstrip(f"{media_type}-")`.  Returns the trace and
whether `ingest` returned normally (`false` = the retry loop re-raised). -/
def ingest (media_type : MediaType) (stat : IndexStat) (suffix : String)
    (oracle : Nat → AttemptOutcome) : List JustEvent × Bool :=
  let header : List JustEvent :=
    [⟨"load-test-data", [media_type.name], true⟩,
     ⟨"stat", [media_type.name], true⟩]
  let loop := ingestLoop media_type suffix oracle 0 (retriesFor media_type)
  if loop.snd then
    let promoteEvs : List JustEvent :=
      [⟨"promote", [media_type.name, suffix, media_type.name], true⟩,
       ⟨"wait-for-index", [media_type.name], true⟩]
    let cleanup : List JustEvent :=
      if stat.indexExists then
        [⟨"delete-index",
          [media_type.name, lstrip stat.alt_names (media_type.name ++ "-")], true⟩]
      else []
    (header ++ loop.fst ++ promoteEvs ++ cleanup, true)
  else (header ++ loop.fst, false)

/-- Number of events in a trace invoking the given recipe. -/
def countRecipe (evs : List JustEvent) (recipe : String) : Nat :=
  (evs.filter (fun e => e.recipe == recipe)).length

/-! ## Cache bust phase of `__main__` -/

/-- One `compose_exec` invocation: target service and shell command. -/
structure ExecCall where
  service : String
  command : String
deriving DecidableEq, Repr

/-- The single-key deletion command sent to the cache:
`echo "del <key>" | redis-cli`. -/
def delCommand (key : String) : String :=
  "echo \"del " ++ key ++ "\" | redis-cli"

/-- The cache key targeted for a media type: `:1:sources-<type>`. -/
def cacheKey (media_type : MediaType) : String :=
  ":1:sources-" ++ media_type.name

/-- The cache-bust command of `__main__`:
`f'echo "del :1:sources-{media_type}" | redis-cli'`. -/
def cacheBustCommand (media_type : MediaType) : String :=
  delCommand (cacheKey media_type)

/-- The trace of `compose_exec` calls issued by the cache-bust loop of
`__main__`: one call per media type, against the cache service. -/
def cacheBustCalls : List ExecCall :=
  MEDIA_TYPES.map (fun mt => ⟨CACHE_SERVICE_NAME, cacheBustCommand mt⟩)

/-! ## Helper lemmas -/

/-- List `contains` agrees with membership. -/
theorem contains_true_iff {α} [BEq α] [LawfulBEq α] (l : List α) (a : α) :
    l.contains a = true ↔ a ∈ l :=
  ⟨List.mem_of_elem_eq_true, List.elem_eq_true_of_mem⟩

/-- After one run of `load_content_providers`, each loaded provider with a
duplicate-free identifier list owns exactly one row of the table. -/
theorem count_after_load (providers : List Provider) (table : List ProviderRow)
    (hnd : (providers.map (fun p => p.identifier)).Nodup)
    (p : Provider) (hp : p ∈ providers) :
    ((load_content_providers providers table).map
      (fun r => r.provider_identifier)).count p.identifier = 1 := by
  unfold load_content_providers
  rw [List.map_append, List.count_append]
  have h1 : ((table.filter
      (fun r => !((providers.map (fun p => p.identifier)).contains r.provider_identifier))).map
      (fun r => r.provider_identifier)).count p.identifier = 0 := by
    rw [List.count_eq_zero]
    intro hmem
    rcases List.mem_map.mp hmem with ⟨r, hr, hid⟩
    rcases List.mem_filter.mp hr with ⟨_, hcond⟩
    rw [Bool.not_eq_true'] at hcond
    have hpmem : p.identifier ∈ providers.map (fun p => p.identifier) :=
      List.mem_map_of_mem (fun p => p.identifier) hp
    rw [← hid] at hpmem
    rw [(contains_true_iff _ _).mpr hpmem] at hcond
    cases hcond
  have h2 : (((providers.map Provider.sql_value).map
      (fun r => r.provider_identifier)).count p.identifier) = 1 := by
    rw [List.map_map]
    exact List.count_eq_one_of_mem hnd (List.mem_map_of_mem _ hp)
  omega

/-- The set of users already stored is untouched by `create_users`: if some
stored user has username `n`, the rows for `n` are the same before and
after. -/
theorem create_users_filter_of_mem (names : List String) (st : List User) (n : String)
    (h : ∃ u ∈ st, u.username = n) :
    (create_users names st).filter (fun u => u.username == n)
      = st.filter (fun u => u.username == n) := by
  induction names generalizing st with
  | nil => rfl
  | cons name rest ih =>
      have step : create_users (name :: rest) st
          = create_users rest (createUserStep st name) := rfl
      rw [step]
      by_cases hex : st.any (fun u => u.username == name) = true
      · rw [show createUserStep st name = st from by
          unfold createUserStep; rw [if_pos hex]]
        exact ih st h
      · have hst : createUserStep st name
            = st ++ [⟨name, "deploy", name == "deploy"⟩] := by
          unfold createUserStep; rw [if_neg hex]
        have hne : name ≠ n := by
          rintro rfl
          obtain ⟨u, hu, huname⟩ := h
          exact hex (List.any_eq_true.mpr ⟨u, hu, by simp [huname]⟩)
        rw [hst]
        obtain ⟨u, hu, huname⟩ := h
        rw [ih _ ⟨u, List.mem_append_left _ hu, huname⟩]
        rw [List.filter_append]
        have hone : ([⟨name, "deploy", name == "deploy"⟩] : List User).filter
            (fun u => u.username == n) = [] := by
          simp [hne]
        rw [hone, List.append_nil]

/-- Every event of one ingest-and-wait attempt invokes `ingest-upstream` or
`wait-for-index`. -/
theorem attemptEvents_recipes (mt : MediaType) (suffix : String) (o : AttemptOutcome) :
    ∀ e ∈ attemptEvents mt suffix o,
      e.recipe = "ingest-upstream" ∨ e.recipe = "wait-for-index" := by
  intro e he
  cases o with
  | upstreamFail =>
      simp [attemptEvents] at he
      subst he; left; rfl
  | waitFail =>
      simp [attemptEvents] at he
      rcases he with rfl | rfl
      · left; rfl
      · right; rfl
  | ok =>
      simp [attemptEvents] at he
      rcases he with rfl | rfl
      · left; rfl
      · right; rfl

/-- Unfolding `ingestLoop` when the current attempt succeeds. -/
theorem ingestLoop_ok_eq (mt : MediaType) (suffix : String)
    (oracle : Nat → AttemptOutcome) (attempt retries : Nat)
    (h : oracle attempt = .ok) :
    ingestLoop mt suffix oracle attempt retries
      = (attemptEvents mt suffix .ok, true) := by
  cases retries <;> simp [ingestLoop, h]

/-- Unfolding `ingestLoop` when the current attempt fails with no retries
left: the loop re-raises. -/
theorem ingestLoop_fail_zero_eq (mt : MediaType) (suffix : String)
    (oracle : Nat → AttemptOutcome) (attempt : Nat)
    (o : AttemptOutcome) (h : oracle attempt = o) (ho : o ≠ .ok) :
    ingestLoop mt suffix oracle attempt 0 = (attemptEvents mt suffix o, false) := by
  cases o
  · simp [ingestLoop, h]
  · simp [ingestLoop, h]
  · exact absurd rfl ho

/-- Unfolding `ingestLoop` when the current attempt fails with retries left:
the loop re-attempts with a decremented budget. -/
theorem ingestLoop_fail_succ_eq (mt : MediaType) (suffix : String)
    (oracle : Nat → AttemptOutcome) (attempt r : Nat)
    (o : AttemptOutcome) (h : oracle attempt = o) (ho : o ≠ .ok) :
    ingestLoop mt suffix oracle attempt (r + 1)
      = (attemptEvents mt suffix o
          ++ (ingestLoop mt suffix oracle (attempt + 1) r).fst,
         (ingestLoop mt suffix oracle (attempt + 1) r).snd) := by
  cases o
  · conv_lhs => simp only [ingestLoop, h]
  · conv_lhs => simp only [ingestLoop, h]
  · exact absurd rfl ho

/-- Every event of the retry loop invokes `ingest-upstream` or
`wait-for-index`. -/
theorem ingestLoop_recipes (mt : MediaType) (suffix : String)
    (oracle : Nat → AttemptOutcome) (retries attempt : Nat) :
    ∀ e ∈ (ingestLoop mt suffix oracle attempt retries).fst,
      e.recipe = "ingest-upstream" ∨ e.recipe = "wait-for-index" := by
  induction retries generalizing attempt with
  | zero =>
      intro e he
      cases h : oracle attempt with
      | ok =>
          rw [ingestLoop_ok_eq mt suffix oracle attempt 0 h] at he
          exact attemptEvents_recipes mt suffix .ok e (by simpa using he)
      | upstreamFail =>
          rw [ingestLoop_fail_zero_eq mt suffix oracle attempt _ h (by simp)] at he
          exact attemptEvents_recipes mt suffix _ e (by simpa using he)
      | waitFail =>
          rw [ingestLoop_fail_zero_eq mt suffix oracle attempt _ h (by simp)] at he
          exact attemptEvents_recipes mt suffix _ e (by simpa using he)
  | succ r ih =>
      intro e he
      cases h : oracle attempt with
      | ok =>
          rw [ingestLoop_ok_eq mt suffix oracle attempt (r + 1) h] at he
          exact attemptEvents_recipes mt suffix .ok e (by simpa using he)
      | upstreamFail =>
          rw [ingestLoop_fail_succ_eq mt suffix oracle attempt r _ h (by simp)] at he
          rcases List.mem_append.mp (by simpa using he) with h1 | h1
          · exact attemptEvents_recipes mt suffix _ e h1
          · exact ih (attempt + 1) e h1
      | waitFail =>
          rw [ingestLoop_fail_succ_eq mt suffix oracle attempt r _ h (by simp)] at he
          rcases List.mem_append.mp (by simpa using he) with h1 | h1
          · exact attemptEvents_recipes mt suffix _ e h1
          · exact ih (attempt + 1) e h1

/-- When the retry loop reports success, its trace contains a successful
`ingest-upstream` call and a successful `wait-for-index` call for the new
index. -/
theorem ingestLoop_success_mem (mt : MediaType) (suffix : String)
    (oracle : Nat → AttemptOutcome) (retries attempt : Nat)
    (hs : (ingestLoop mt suffix oracle attempt retries).snd = true) :
    (⟨"ingest-upstream", [mt.name, suffix], true⟩ : JustEvent)
        ∈ (ingestLoop mt suffix oracle attempt retries).fst
    ∧ (⟨"wait-for-index", [mt.name ++ "-" ++ suffix], true⟩ : JustEvent)
        ∈ (ingestLoop mt suffix oracle attempt retries).fst := by
  induction retries generalizing attempt with
  | zero =>
      cases h : oracle attempt with
      | ok =>
          rw [ingestLoop_ok_eq mt suffix oracle attempt 0 h]
          exact ⟨by simp [attemptEvents], by simp [attemptEvents]⟩
      | upstreamFail =>
          rw [ingestLoop_fail_zero_eq mt suffix oracle attempt _ h (by simp)] at hs
          simp at hs
      | waitFail =>
          rw [ingestLoop_fail_zero_eq mt suffix oracle attempt _ h (by simp)] at hs
          simp at hs
  | succ r ih =>
      cases h : oracle attempt with
      | ok =>
          rw [ingestLoop_ok_eq mt suffix oracle attempt (r + 1) h]
          exact ⟨by simp [attemptEvents], by simp [attemptEvents]⟩
      | upstreamFail =>
          rw [ingestLoop_fail_succ_eq mt suffix oracle attempt r _ h (by simp)] at hs ⊢
          obtain ⟨h1, h2⟩ := ih (attempt + 1) (by simpa using hs)
          exact ⟨List.mem_append_right _ h1, List.mem_append_right _ h2⟩
      | waitFail =>
          rw [ingestLoop_fail_succ_eq mt suffix oracle attempt r _ h (by simp)] at hs ⊢
          obtain ⟨h1, h2⟩ := ih (attempt + 1) (by simpa using hs)
          exact ⟨List.mem_append_right _ h1, List.mem_append_right _ h2⟩

/-- Unfolding `ingest` when the retry loop re-raises: the trace stops at the
loop and `ingest` fails. -/
theorem ingest_fail_eq (mt : MediaType) (stat : IndexStat) (suffix : String)
    (oracle : Nat → AttemptOutcome)
    (hs : (ingestLoop mt suffix oracle 0 (retriesFor mt)).snd = false) :
    ingest mt stat suffix oracle
      = ([⟨"load-test-data", [mt.name], true⟩, ⟨"stat", [mt.name], true⟩]
          ++ (ingestLoop mt suffix oracle 0 (retriesFor mt)).fst, false) := by
  simp [ingest, hs]

/-- Unfolding `ingest` when the retry loop succeeds: promotion and, if a
prior index existed, cleanup follow the loop's trace. -/
theorem ingest_success_eq (mt : MediaType) (stat : IndexStat) (suffix : String)
    (oracle : Nat → AttemptOutcome)
    (hs : (ingestLoop mt suffix oracle 0 (retriesFor mt)).snd = true) :
    ingest mt stat suffix oracle
      = ([⟨"load-test-data", [mt.name], true⟩, ⟨"stat", [mt.name], true⟩]
          ++ (ingestLoop mt suffix oracle 0 (retriesFor mt)).fst
          ++ [⟨"promote", [mt.name, suffix, mt.name], true⟩,
              ⟨"wait-for-index", [mt.name], true⟩]
          ++ (if stat.indexExists then
                [⟨"delete-index",
                  [mt.name, lstrip stat.alt_names (mt.name ++ "-")], true⟩]
              else []), true) := by
  simp [ingest, hs]

/-! ## Theorems -/

/-- C1: after a successful promotion for media type `image` where the status
query reported a prior index with suffix `abc123` (full name
`image-abc123`), `ingest` issues exactly one `delete-index` call — but its
suffix argument is `bc123`, not `abc123`: Python's `lstrip` strips the
*character set* `{i,m,a,g,e,-}`, eating the suffix's leading `a`, so the
recorded suffix is not passed exactly. -/
theorem ingest_delete_index_lstrip_bug :
    ((ingest .image ⟨true, "image-abc123"⟩ "f00d" (fun _ => .ok)).fst.filter
        (fun e => e.recipe == "delete-index")).map JustEvent.argv
      = [["image", "bc123"]]
    ∧ (["image", "bc123"] : List String) ≠ ["image", "abc123"] := by
  decide

/-- C2: the ingest-and-wait step is retried with budget 2 for `image` and 0
otherwise: with failures on attempts 1 and 2 and success on attempt 3,
`ingest` for `image` returns normally, makes exactly 3 `ingest-upstream`
attempts (never a fourth) and promotes once; with a failure on attempt 1,
`ingest` for `audio` re-raises after exactly 1 attempt and never promotes. -/
theorem ingest_retry_budget (stat : IndexStat) (suffix : String) :
    ((ingest .image stat suffix (fun n => if n < 2 then .upstreamFail else .ok)).snd
        = true
      ∧ countRecipe
          (ingest .image stat suffix (fun n => if n < 2 then .upstreamFail else .ok)).fst
          "ingest-upstream" = 3
      ∧ countRecipe
          (ingest .image stat suffix (fun n => if n < 2 then .upstreamFail else .ok)).fst
          "promote" = 1)
    ∧ ((ingest .audio stat suffix (fun _ => .upstreamFail)).snd = false
      ∧ countRecipe (ingest .audio stat suffix (fun _ => .upstreamFail)).fst
          "ingest-upstream" = 1
      ∧ countRecipe (ingest .audio stat suffix (fun _ => .upstreamFail)).fst
          "promote" = 0) := by
  rcases stat with ⟨ex, alt⟩
  cases ex <;>
    simp [ingest, ingestLoop, attemptEvents, retriesFor, countRecipe, List.filter]

/-- C3: `backup_table` swallows exactly the failure whose error text contains
`relation "<type>_template" already exists` (returning normally) and
re-raises every other failure; consequently running the backup phase twice
in sequence against the database never raises. -/
theorem backup_table_idempotent (media_type : MediaType) (e : DockerErr)
    (templateExists : Bool) :
    (containsSubstring e.stderr (relationExistsMsg media_type) = true →
      backup_table media_type (.error e) = .ok ())
    ∧ (containsSubstring e.stderr (relationExistsMsg media_type) = false →
      backup_table media_type (.error e) = .error e)
    ∧ (backupPhase media_type (backupPhase media_type templateExists).fst).snd
        = .ok () := by
  refine ⟨?_, ?_, ?_⟩
  · intro h; simp [backup_table, h]
  · intro h; simp [backup_table, h]
  · cases media_type <;> cases templateExists <;> rfl

/-- Witness for C3 at concrete inputs: the relation-already-exists error is
swallowed, a syntax error is re-raised, and the second backup run of
`image` returns normally. -/
theorem backup_table_idempotent_witness :
    backup_table .image
        (.error ⟨"ERROR:  relation \"image_template\" already exists"⟩) = .ok ()
    ∧ backup_table .image (.error ⟨"ERROR:  syntax error"⟩)
        = .error ⟨"ERROR:  syntax error"⟩
    ∧ (backupPhase .image (backupPhase .image false).fst).snd = .ok () :=
  ⟨(backup_table_idempotent .image
      ⟨"ERROR:  relation \"image_template\" already exists"⟩ false).1 (by decide),
   (backup_table_idempotent .image ⟨"ERROR:  syntax error"⟩ false).2.1 (by decide),
   (backup_table_idempotent .image ⟨"ERROR:  syntax error"⟩ false).2.2⟩

/-- C7: the cache-bust phase issues, for each media type, exactly one command
equal to the single-key deletion of `:1:sources-<type>`; every call of the
phase is a single-key deletion of some media type's own key against the
cache service (no pattern or bulk eviction), and keys of distinct media
types are distinct. -/
theorem cache_bust_single_key (media_type : MediaType) :
    (cacheBustCalls.filter
        (fun c => c.command == cacheBustCommand media_type)).length = 1
    ∧ (∀ c ∈ cacheBustCalls, c.service = CACHE_SERVICE_NAME
        ∧ ∃ mt, c.command = delCommand (cacheKey mt))
    ∧ (∀ mt : MediaType, mt ≠ media_type → cacheKey mt ≠ cacheKey media_type) := by
  refine ⟨?_, ?_, ?_⟩
  · cases media_type <;> decide
  · intro c hc
    rcases List.mem_map.mp hc with ⟨mt, _, rfl⟩
    exact ⟨rfl, mt, rfl⟩
  · intro mt hne
    cases mt <;> cases media_type <;> first | exact absurd rfl hne | decide

/-- Witness for C7 at media type `image` and the image cache-bust call. -/
theorem cache_bust_single_key_witness :
    (cacheBustCalls.filter
        (fun c => c.command == cacheBustCommand .image)).length = 1
    ∧ ((⟨CACHE_SERVICE_NAME, cacheBustCommand .image⟩ : ExecCall).service
          = CACHE_SERVICE_NAME
        ∧ ∃ mt, (⟨CACHE_SERVICE_NAME, cacheBustCommand .image⟩ : ExecCall).command
            = delCommand (cacheKey mt))
    ∧ cacheKey .audio ≠ cacheKey .image :=
  ⟨(cache_bust_single_key .image).1,
   (cache_bust_single_key .image).2.1
     ⟨CACHE_SERVICE_NAME, cacheBustCommand .image⟩ (by decide),
   (cache_bust_single_key .image).2.2 .audio (by decide)⟩

/-- C4: for providers with pairwise-distinct identifiers,
`load_content_providers` deletes the matching rows and inserts one fresh row
per provider, so running it twice in sequence leaves exactly one row per
identifier in the list, whatever the initial table. -/
theorem load_content_providers_idempotent (providers : List Provider)
    (table : List ProviderRow)
    (hnd : (providers.map (fun p => p.identifier)).Nodup) :
    ∀ p ∈ providers,
      ((load_content_providers providers
          (load_content_providers providers table)).map
        (fun r => r.provider_identifier)).count p.identifier = 1 :=
  fun p hp => count_after_load providers _ hnd p hp

/-- Witness for C4: loading the `flickr` provider twice over an empty table
leaves exactly one `flickr` row. -/
theorem load_content_providers_idempotent_witness :
    (([⟨"flickr", "Flickr", "https://www.flickr.com", "image", false⟩] :
        List Provider).map (fun p => p.identifier)).Nodup
    ∧ (⟨"flickr", "Flickr", "https://www.flickr.com", "image", false⟩ : Provider)
        ∈ ([⟨"flickr", "Flickr", "https://www.flickr.com", "image", false⟩] :
            List Provider)
    ∧ ((load_content_providers
          [⟨"flickr", "Flickr", "https://www.flickr.com", "image", false⟩]
          (load_content_providers
            [⟨"flickr", "Flickr", "https://www.flickr.com", "image", false⟩] [])).map
        (fun r => r.provider_identifier)).count "flickr" = 1 :=
  ⟨by decide, by decide,
   load_content_providers_idempotent
     [⟨"flickr", "Flickr", "https://www.flickr.com", "image", false⟩] []
     (by decide)
     ⟨"flickr", "Flickr", "https://www.flickr.com", "image", false⟩ (by decide)⟩

/-- C5: for every media type, index status, suffix and sequence of
ingest-attempt outcomes, whenever the trace of `ingest` invokes the
`promote` recipe, the trace up to that point already contains a successful
`ingest-upstream` invocation for the media type and suffix and a successful
`wait-for-index` invocation for `<type>-<suffix>`: no index that failed to
reach a ready state is ever promoted. -/
theorem ingest_promote_only_after_ready (mt : MediaType) (stat : IndexStat)
    (suffix : String) (oracle : Nat → AttemptOutcome) :
    ∀ e ∈ (ingest mt stat suffix oracle).fst, e.recipe = "promote" →
      ∃ pre suf, (ingest mt stat suffix oracle).fst = pre ++ e :: suf
        ∧ (⟨"ingest-upstream", [mt.name, suffix], true⟩ : JustEvent) ∈ pre
        ∧ (⟨"wait-for-index", [mt.name ++ "-" ++ suffix], true⟩ : JustEvent) ∈ pre := by
  intro e he hrec
  cases hs : (ingestLoop mt suffix oracle 0 (retriesFor mt)).snd
  case false =>
    exfalso
    rw [ingest_fail_eq mt stat suffix oracle hs] at he
    replace he : e ∈ [⟨"load-test-data", [mt.name], true⟩, ⟨"stat", [mt.name], true⟩]
        ++ (ingestLoop mt suffix oracle 0 (retriesFor mt)).fst := he
    rcases List.mem_append.mp he with h1 | h1
    · simp at h1
      rcases h1 with rfl | rfl <;> simp at hrec
    · rcases ingestLoop_recipes mt suffix oracle _ 0 e h1 with h2 | h2 <;>
        · rw [hrec] at h2; exact absurd h2 (by decide)
  case true =>
    rw [ingest_success_eq mt stat suffix oracle hs] at he ⊢
    have he' : e ∈ ([⟨"load-test-data", [mt.name], true⟩, ⟨"stat", [mt.name], true⟩]
        ++ (ingestLoop mt suffix oracle 0 (retriesFor mt)).fst
        ++ [⟨"promote", [mt.name, suffix, mt.name], true⟩,
            ⟨"wait-for-index", [mt.name], true⟩]
        ++ (if stat.indexExists then
              [⟨"delete-index",
                [mt.name, lstrip stat.alt_names (mt.name ++ "-")], true⟩]
            else [])) := he
    have hEp : e = ⟨"promote", [mt.name, suffix, mt.name], true⟩ := by
      rcases List.mem_append.mp he' with h1 | h1
      · rcases List.mem_append.mp h1 with h2 | h2
        · rcases List.mem_append.mp h2 with h3 | h3
          · exfalso
            simp at h3
            rcases h3 with rfl | rfl <;> simp at hrec
          · exfalso
            rcases ingestLoop_recipes mt suffix oracle _ 0 e h3 with h4 | h4 <;>
              · rw [hrec] at h4; exact absurd h4 (by decide)
        · simp at h2
          rcases h2 with rfl | rfl
          · rfl
          · simp at hrec
      · exfalso
        cases hx : stat.indexExists
        · rw [hx] at h1; simp at h1
        · rw [hx] at h1
          simp at h1
          subst h1
          simp at hrec
    subst hEp
    refine ⟨[⟨"load-test-data", [mt.name], true⟩, ⟨"stat", [mt.name], true⟩]
        ++ (ingestLoop mt suffix oracle 0 (retriesFor mt)).fst,
      ⟨"wait-for-index", [mt.name], true⟩ ::
        (if stat.indexExists then
          [⟨"delete-index",
            [mt.name, lstrip stat.alt_names (mt.name ++ "-")], true⟩]
        else []), ?_, ?_, ?_⟩
    · simp [List.append_assoc]
    · exact List.mem_append_right _ (ingestLoop_success_mem mt suffix oracle _ 0 hs).1
    · exact List.mem_append_right _ (ingestLoop_success_mem mt suffix oracle _ 0 hs).2

/-- Witness for C5: in a run whose single attempt succeeds, the promote event
is preceded by the successful ingest-upstream and wait-for-index events. -/
theorem ingest_promote_only_after_ready_witness :
    (⟨"promote", ["image", "s0", "image"], true⟩ : JustEvent)
        ∈ (ingest .image ⟨false, ""⟩ "s0" (fun _ => .ok)).fst
    ∧ ∃ pre suf,
        (ingest .image ⟨false, ""⟩ "s0" (fun _ => .ok)).fst
          = pre ++ (⟨"promote", ["image", "s0", "image"], true⟩ : JustEvent) :: suf
        ∧ (⟨"ingest-upstream", ["image", "s0"], true⟩ : JustEvent) ∈ pre
        ∧ (⟨"wait-for-index", ["image-s0"], true⟩ : JustEvent) ∈ pre :=
  ⟨by decide,
   ingest_promote_only_after_ready .image ⟨false, ""⟩ "s0" (fun _ => .ok)
     ⟨"promote", ["image", "s0", "image"], true⟩ (by decide) (by decide)⟩

/-- C6: `load_sample_data` bulk-loads using exactly the column list of the
CSV header, in order: if the header names a column missing from the
destination table the batch fails and the table is unchanged (no row
committed); if every header column matches, the rows are inserted with
fields bound to the header's columns in header order. -/
theorem load_sample_data_csv_header (mt : MediaType) (fileLines destCols : List String)
    (rows : List (List String)) (table : List (List (String × String))) :
    ((∃ c ∈ copyColumns fileLines, c ∉ destCols) →
      load_sample_data mt fileLines destCols rows table = (table, false))
    ∧ ((∀ c ∈ copyColumns fileLines, c ∈ destCols) →
      load_sample_data mt fileLines destCols rows table
        = (table ++ rows.map (fun r => (copyColumns fileLines).zip r), true)) := by
  constructor
  · rintro ⟨c, hc, hnc⟩
    unfold load_sample_data copyExec
    rw [if_neg]
    intro hall
    rw [List.all_eq_true] at hall
    exact hnc ((contains_true_iff _ _).mp (by simpa using hall c hc))
  · intro hall
    unfold load_sample_data copyExec
    rw [if_pos]
    rw [List.all_eq_true]
    intro c hc
    simpa using (contains_true_iff _ _).mpr (hall c hc)

/-- Witness for C6: a header with a column missing from the destination fails
and commits nothing; a fully matching header loads the rows in header
order. -/
theorem load_sample_data_csv_header_witness :
    (∃ c ∈ copyColumns ["id,title"], c ∉ (["id"] : List String))
    ∧ load_sample_data .image ["id,title"] ["id"] [["1", "t"]] [] = ([], false)
    ∧ load_sample_data .image ["id,title"] ["id", "title"] [["1", "t"]] []
        = ([] ++ [["1", "t"]].map (fun r => (copyColumns ["id,title"]).zip r), true) :=
  ⟨⟨"title", by decide, by decide⟩,
   (load_sample_data_csv_header .image ["id,title"] ["id"] [["1", "t"]] []).1
     ⟨"title", by decide, by decide⟩,
   (load_sample_data_csv_header .image ["id,title"] ["id", "title"] [["1", "t"]] []).2
     (by decide)⟩

/-- C8: the provider list discovered from the sample-data files contains no
duplicate identifiers, whatever the contents of the files: the values are
collected into a set before being listed. -/
theorem get_actual_providers_nodup (sampleProviders : MediaType → List String) :
    (get_actual_providers sampleProviders).Nodup := by
  have key : ∀ (l acc : List String), acc.Nodup → (l.foldl insertSet acc).Nodup := by
    intro l
    induction l with
    | nil => exact fun acc h => h
    | cons x xs ih =>
        intro acc h
        rw [List.foldl_cons]
        apply ih
        unfold insertSet
        by_cases hx : acc.contains x = true
        · rw [if_pos hx]; exact h
        · rw [if_neg hx]
          rw [List.nodup_append]
          refine ⟨h, List.nodup_singleton x, ?_⟩
          intro a ha hax
          rw [List.mem_singleton] at hax
          subst hax
          exact hx ((contains_true_iff _ _).mpr ha)
  exact key _ [] List.nodup_nil

/-- C9: if a provider identifier from the sample data is absent from the
static catalog, building the provider list raises `KeyError` before
`load_content_providers` is invoked, and the provider table is unchanged. -/
theorem provider_lookup_error_no_load (catalog : List (String × Provider))
    (actual : List String) (table : List ProviderRow) (p : String)
    (hp : p ∈ actual) (hl : catalog.lookup p = none) :
    providerLoadStep catalog actual table = (table, false) := by
  have hnone : buildProviderList catalog actual = none := by
    induction actual with
    | nil => cases hp
    | cons x xs ih =>
        rcases List.mem_cons.mp hp with h | h
        · subst h; simp [buildProviderList, hl]
        · cases hx : catalog.lookup x
          · simp [buildProviderList, hx]
          · simp [buildProviderList, hx, ih h]
  simp [providerLoadStep, hnone]

/-- Witness for C9: an identifier absent from a one-entry catalog leaves the
table untouched and the step uncompleted. -/
theorem provider_lookup_error_no_load_witness :
    ("nope" ∈ (["nope"] : List String))
    ∧ ([("flickr", (⟨"flickr", "Flickr", "https://www.flickr.com", "image", false⟩ :
        Provider))].lookup "nope" = none)
    ∧ providerLoadStep
        [("flickr", ⟨"flickr", "Flickr", "https://www.flickr.com", "image", false⟩)]
        ["nope"] [] = ([], false) :=
  ⟨by decide, by decide,
   provider_lookup_error_no_load
     [("flickr", ⟨"flickr", "Flickr", "https://www.flickr.com", "image", false⟩)]
     ["nope"] [] "nope" (by decide) (by decide)⟩

/-- C10: `create_users` skips every username that already exists, leaving its
stored rows unchanged, and creates every non-existing username exactly once
with password `deploy`, as a superuser precisely when the username is
`deploy`. -/
theorem create_users_spec (names : List String) (st : List User) (n : String) :
    ((∃ u ∈ st, u.username = n) →
      (create_users names st).filter (fun u => u.username == n)
        = st.filter (fun u => u.username == n))
    ∧ (n ∈ names → (∀ u ∈ st, u.username ≠ n) →
      (create_users names st).filter (fun u => u.username == n)
        = [⟨n, "deploy", n == "deploy"⟩]) := by
  refine ⟨create_users_filter_of_mem names st n, ?_⟩
  induction names generalizing st with
  | nil => intro hn; cases hn
  | cons name rest ih =>
      intro hn habs
      have step : create_users (name :: rest) st
          = create_users rest (createUserStep st name) := rfl
      rw [step]
      by_cases hname : name = n
      · subst hname
        have hex : ¬ (st.any (fun u => u.username == name) = true) := by
          rw [List.any_eq_true]
          rintro ⟨u, hu, hb⟩
          exact habs u hu (by simpa using hb)
        have hst : createUserStep st name
            = st ++ [⟨name, "deploy", name == "deploy"⟩] := by
          unfold createUserStep; rw [if_neg hex]
        rw [hst]
        rw [create_users_filter_of_mem rest _ name
          ⟨⟨name, "deploy", name == "deploy"⟩,
           List.mem_append_right _ (List.mem_singleton_self _), rfl⟩]
        rw [List.filter_append]
        have h1 : st.filter (fun u => u.username == name) = [] := by
          rw [List.filter_eq_nil_iff]
          intro u hu
          simp [habs u hu]
        rw [h1]
        simp
      · have hn' : n ∈ rest := by
          rcases List.mem_cons.mp hn with h | h
          · exact absurd h.symm hname
          · exact h
        by_cases hex : st.any (fun u => u.username == name) = true
        · rw [show createUserStep st name = st from by
            unfold createUserStep; rw [if_pos hex]]
          exact ih st hn' habs
        · have hst : createUserStep st name
              = st ++ [⟨name, "deploy", name == "deploy"⟩] := by
            unfold createUserStep; rw [if_neg hex]
          rw [hst]
          apply ih _ hn'
          intro u hu
          rcases List.mem_append.mp hu with h | h
          · exact habs u h
          · rw [List.mem_singleton] at h
            subst h
            simpa using hname

/-- Witness for C10: running `create_users` on the script's username list
from an empty store creates `deploy` once as a superuser; an existing user
is skipped and left unchanged. -/
theorem create_users_spec_witness :
    ("deploy" ∈ (["deploy", "continuous_integration"] : List String))
    ∧ (create_users ["deploy", "continuous_integration"] []).filter
        (fun u => u.username == "deploy")
        = [⟨"deploy", "deploy", "deploy" == "deploy"⟩]
    ∧ (create_users ["continuous_integration"]
        [⟨"continuous_integration", "old", false⟩]).filter
        (fun u => u.username == "continuous_integration")
        = ([⟨"continuous_integration", "old", false⟩] : List User).filter
            (fun u => u.username == "continuous_integration") :=
  ⟨by decide,
   (create_users_spec ["deploy", "continuous_integration"] [] "deploy").2
     (by decide) (by intro u hu; cases hu),
   (create_users_spec ["continuous_integration"]
       [⟨"continuous_integration", "old", false⟩] "continuous_integration").1
     ⟨⟨"continuous_integration", "old", false⟩, by decide, rfl⟩⟩

end LoadSampleData
